import Mathlib

/-!
Shallow embedding of the `block_on` procedural-macro transform
(`src/lib.rs` of the `block_on` repository).

The transform receives an impl block (an owning type name together with an
ordered list of members) and a backend selector string.  For every async
method it synthesizes a non-async sibling method whose name carries the
`_blocking` suffix and whose body drives the original async call to
completion on the selected backend.  The synthesized methods are pushed
onto the cloned impl block one by one, so they end up appended after all
original members, in the order their async originals appear.
-/

namespace BlockOn

/-- A function argument, mirroring syn's `FnArg`: either a receiver marker
(`self`, `&self`, `&mut self`, carried as an opaque token) or a typed
binding, whose binding pattern is reused verbatim as the forwarded
argument expression. -/
inductive FnArg where
  | receiver (tok : String)
  | typed (pat : String) (ty : String)
deriving DecidableEq, Repr

/-- A method signature, mirroring the fields of syn's `Signature` that the
transform reads or writes: the identifier, the asyncness flag, the ordered
input list, and the remaining signature payload (return type, generics)
carried opaquely so that "copied unchanged" is observable. -/
structure Signature where
  ident : String
  asyncness : Bool
  inputs : List FnArg
  output : String
  generics : String
deriving DecidableEq, Repr

/-- The call target of the synthesized call expression: either `self`
(instance-call syntax) or the owning type's name (type-qualified call). -/
inductive Qualifier where
  | selfQual
  | typeQual (ty : String)
deriving DecidableEq, Repr

/-- The call expression `qualifier.name(args)` / `Type::name(args)`
constructed inside each synthesized body. -/
structure CallExpr where
  qualifier : Qualifier
  method : String
  args : List String
deriving DecidableEq, Repr

/-- One statement of a synthesized body, mirroring the tokens emitted by the
two `quote!` templates in `src/lib.rs`. -/
inductive Stmt where
  | useTokioRuntime
  | letRuntimeNewUnwrap
  | rtBlockOn (call : CallExpr)
  | useAsyncStdTask
  | taskBlockOn (call : CallExpr)
deriving DecidableEq, Repr

/-- A method body: the ordered statements of its block. -/
abbrev Block := List Stmt

/-- A method (syn's `ImplItemMethod`): the signature and block the
transform manipulates, plus the remaining method payload (attributes,
visibility, defaultness) carried opaquely, since `method.clone()` copies
them unchanged. -/
structure Method where
  attrs : String
  vis : String
  defaultness : String
  sig : Signature
  block : Block
deriving DecidableEq, Repr

/-- A member of an impl block, mirroring syn's `ImplItem`: either a method
or any other member kind, carried opaquely (the transform's `match` has a
catch-all `_ => {}` arm for those). -/
inductive ImplItem where
  | method (m : Method)
  | other (tok : String)
deriving DecidableEq, Repr

/-- An impl block (syn's `ItemImpl`): the self type's name and the ordered
member list. -/
structure ItemImpl where
  selfTy : String
  items : List ImplItem
deriving DecidableEq, Repr

/-- The panic message of `src/lib.rs` for an unsupported backend selector. -/
def errMsg : String := "Only `tokio` and `async-std` backends are supported!"

/-- Whether a `FnArg` is a receiver marker, mirroring the `match` inside the
`any` closure of `src/lib.rs` (lines 88-91). -/
def isReceiver : FnArg → Bool
  | .receiver _ => true
  | .typed _ _ => false

/-- The forwarded argument list: the binding patterns of the typed
arguments, in order, receivers dropped — mirroring the
`map`/`filter`/`map` chain building `call_args` (lines 93-100). -/
def callArgs (inputs : List FnArg) : List String :=
  inputs.filterMap fun arg =>
    match arg with
    | .receiver _ => none
    | .typed pat _ => some pat

/-- The synthesized body, mirroring the nested `if rec` / `if attr` chain of
`src/lib.rs` (lines 102-142): outer branch on the receiver flag, inner
branch on the selector string, `panic!` (modelled as `Except.error`) on any
other selector. -/
def mkBlock (attr : String) (strct : String) (hasRec : Bool)
    (name : String) (args : List String) : Except String Block :=
  if hasRec then
    if attr = "tokio" then
      .ok [.useTokioRuntime, .letRuntimeNewUnwrap,
           .rtBlockOn ⟨.selfQual, name, args⟩]
    else if attr = "async-std" then
      .ok [.useAsyncStdTask, .taskBlockOn ⟨.selfQual, name, args⟩]
    else
      .error errMsg
  else
    if attr = "tokio" then
      .ok [.useTokioRuntime, .letRuntimeNewUnwrap,
           .rtBlockOn ⟨.typeQual strct, name, args⟩]
    else if attr = "async-std" then
      .ok [.useAsyncStdTask, .taskBlockOn ⟨.typeQual strct, name, args⟩]
    else
      .error errMsg

/-- One iteration of the `for item in in_impl.items` loop: `Other` members
and non-async methods produce no wrapper (`_ => {}` resp. `continue`); an
async method produces the cloned method with asyncness cleared, the
`_blocking`-suffixed identifier, and the synthesized block (lines 71-150).
The source binds `rec` for the receiver flag; `rec` is reserved here, so it
is named `hasRec`. -/
def processItem (attr : String) (strct : String) :
    ImplItem → Except String (Option Method)
  | .other _ => .ok none
  | .method method =>
    if method.sig.asyncness = false then .ok none
    else
      let hasRec := method.sig.inputs.any isReceiver
      match mkBlock attr strct hasRec method.sig.ident
          (callArgs method.sig.inputs) with
      | .error e => .error e
      | .ok blk =>
        .ok (some { method with
          sig := { method.sig with
            asyncness := false
            ident := method.sig.ident ++ "_blocking" }
          block := blk })

/-- The loop of `src/lib.rs` over the member list, collecting in order the
wrappers pushed onto `orig_impl.items`; the first `panic!` aborts the whole
invocation. -/
def processItems (attr : String) (strct : String) :
    List ImplItem → Except String (List ImplItem)
  | [] => .ok []
  | item :: rest =>
    match processItem attr strct item with
    | .error e => .error e
    | .ok none => processItems attr strct rest
    | .ok (some w) =>
      match processItems attr strct rest with
      | .error e => .error e
      | .ok ws => .ok (.method w :: ws)

/-- The whole transform, mirroring `pub fn block_on` (lines 63-157):
`orig_impl` starts as a clone of the input, each synthesized wrapper is
pushed onto its member list, and `orig_impl` is emitted — so the output is
the original members followed by the wrappers, or the panic if the loop
panicked. -/
def block_on (attr : String) (input : ItemImpl) : Except String ItemImpl :=
  match processItems attr input.selfTy input.items with
  | .error e => .error e
  | .ok ws => .ok ⟨input.selfTy, input.items ++ ws⟩

/-- The async method carried by a member, if any: `some m` iff the member
is a method whose signature has the asyncness flag set. -/
def asyncMethod? : ImplItem → Option Method
  | .method m => if m.sig.asyncness then some m else none
  | .other _ => none

/-- Whether a member is an async method. -/
def isAsyncItem (it : ImplItem) : Bool :=
  (asyncMethod? it).isSome

/-- The wrapper that a valid selector produces for an async method: clone
of the method with asyncness cleared, `_blocking`-suffixed name, and the
backend-specific synthesized block. -/
def wrapperM (attr : String) (strct : String) (m : Method) : Method :=
  let hasRec := m.sig.inputs.any isReceiver
  let call : CallExpr :=
    ⟨if hasRec then .selfQual else .typeQual strct,
     m.sig.ident, callArgs m.sig.inputs⟩
  { m with
    sig := { m.sig with
      asyncness := false
      ident := m.sig.ident ++ "_blocking" }
    block :=
      if attr = "tokio" then
        [.useTokioRuntime, .letRuntimeNewUnwrap, .rtBlockOn call]
      else
        [.useAsyncStdTask, .taskBlockOn call] }

/-- The member-level wrapper: `some` wrapper member for an async method,
`none` otherwise. -/
def wrapItem (attr : String) (strct : String) (it : ImplItem) :
    Option ImplItem :=
  (asyncMethod? it).map fun m => ImplItem.method (wrapperM attr strct m)

/-- A member that is a non-async method named `n ++ "_blocking"` — the
shape of the methods the transform synthesizes for an async method `n`. -/
def isBlockingWrapperNamed (n : String) : ImplItem → Bool
  | .method m => decide (m.sig.ident = n ++ "_blocking") && !m.sig.asyncness
  | .other _ => false

/-- A member that is an async method named `n`. -/
def isAsyncNamed (n : String) : ImplItem → Bool
  | .method m => decide (m.sig.ident = n) && m.sig.asyncness
  | .other _ => false

/-- The call expression driven to completion by a synthesized block: the
argument of its `rt.block_on(...)` or `task::block_on(...)` statement. -/
def blockCall : Block → Option CallExpr
  | [] => none
  | .rtBlockOn c :: _ => some c
  | .taskBlockOn c :: _ => some c
  | _ :: rest => blockCall rest

/-- Whether the first entry of a parameter list is a receiver marker —
the spec's formulation of receiver detection. -/
def firstIsReceiver : List FnArg → Bool
  | [] => false
  | a :: _ => isReceiver a

/-- The binding pattern (or receiver token) of an argument. -/
def argPat : FnArg → String
  | .receiver tok => tok
  | .typed pat _ => pat

/-- Fixture: an async instance method `test_async(&self, a: u32) -> u32`. -/
def asyncM : Method :=
  { attrs := "inline", vis := "pub", defaultness := "",
    sig := { ident := "test_async", asyncness := true,
             inputs := [.receiver "&self", .typed "a" "u32"],
             output := "u32", generics := "" },
    block := [] }

/-- Fixture: a synchronous method `helper()`. -/
def syncM : Method :=
  { attrs := "", vis := "", defaultness := "",
    sig := { ident := "helper", asyncness := false,
             inputs := [], output := "()", generics := "" },
    block := [] }

/-- Fixture: a non-method member. -/
def otherItem : ImplItem := .other "const X: u32 = 1;"

/-- Fixture: an impl block with an async method, a non-method member and a
synchronous method, in that order. -/
def w1inp : ItemImpl := ⟨"T", [.method asyncM, otherItem, .method syncM]⟩

/-- Fixture: the wrapper the `tokio` backend synthesizes for `asyncM`. -/
def w1wrap : Method := wrapperM "tokio" "T" asyncM

/-- Fixture: the output impl block for `w1inp` with the `tokio` backend. -/
def w1out : ItemImpl :=
  ⟨"T", [.method asyncM, otherItem, .method syncM, .method w1wrap]⟩

/-- Fixture: an async associated function `make() -> Self` (no receiver). -/
def asyncAssocM : Method :=
  { attrs := "", vis := "pub", defaultness := "",
    sig := { ident := "make", asyncness := true,
             inputs := [.typed "n" "u32"], output := "Self", generics := "" },
    block := [] }

/-- Fixture: an impl block containing no async method at all. -/
def noAsyncInp : ItemImpl := ⟨"T", [otherItem, .method syncM]⟩

theorem processItem_valid (attr strct : String)
    (h : attr = "tokio" ∨ attr = "async-std") (it : ImplItem) :
    processItem attr strct it = .ok ((asyncMethod? it).map (wrapperM attr strct)) := by
  cases it with
  | other t => rfl
  | method m =>
    cases hb : m.sig.asyncness with
    | false => simp [processItem, asyncMethod?, hb]
    | true =>
      rcases h with h | h <;> subst h <;>
        cases hr : m.sig.inputs.any isReceiver <;>
          simp [processItem, asyncMethod?, hb, hr, mkBlock, wrapperM]

theorem processItems_valid (attr strct : String)
    (h : attr = "tokio" ∨ attr = "async-std") (items : List ImplItem) :
    processItems attr strct items =
      .ok (items.filterMap (wrapItem attr strct)) := by
  induction items with
  | nil => rfl
  | cons it rest ih =>
    rw [processItems, processItem_valid attr strct h it]
    cases ha : asyncMethod? it with
    | none => simp [ha, ih, wrapItem]
    | some m => simp [ha, ih, wrapItem]

theorem block_on_valid (attr : String) (input : ItemImpl)
    (h : attr = "tokio" ∨ attr = "async-std") :
    block_on attr input =
      .ok ⟨input.selfTy,
           input.items ++ input.items.filterMap (wrapItem attr input.selfTy)⟩ := by
  rw [block_on, processItems_valid attr input.selfTy h input.items]

theorem processItem_invalid_async (attr strct : String)
    (h1 : attr ≠ "tokio") (h2 : attr ≠ "async-std")
    (m : Method) (hm : m.sig.asyncness = true) :
    processItem attr strct (.method m) = .error errMsg := by
  cases hr : m.sig.inputs.any isReceiver <;>
    simp [processItem, hm, hr, mkBlock, h1, h2]

theorem processItem_nonasync (attr strct : String) (it : ImplItem)
    (h : isAsyncItem it = false) :
    processItem attr strct it = .ok none := by
  cases it with
  | other t => rfl
  | method m =>
    cases hb : m.sig.asyncness with
    | false => simp [processItem, hb]
    | true => simp [isAsyncItem, asyncMethod?, hb] at h

theorem processItems_invalid (attr strct : String)
    (h1 : attr ≠ "tokio") (h2 : attr ≠ "async-std")
    (items : List ImplItem) (hex : ∃ it ∈ items, isAsyncItem it = true) :
    processItems attr strct items = .error errMsg := by
  induction items with
  | nil => simp at hex
  | cons it rest ih =>
    cases hit : isAsyncItem it with
    | true =>
      cases it with
      | other t => simp [isAsyncItem, asyncMethod?] at hit
      | method m' =>
        have hm : m'.sig.asyncness = true := by
          cases hb : m'.sig.asyncness with
          | false => simp [isAsyncItem, asyncMethod?, hb] at hit
          | true => rfl
        rw [processItems, processItem_invalid_async attr strct h1 h2 m' hm]
    | false =>
      rcases hex with ⟨jt, hjt, hja⟩
      rcases List.mem_cons.mp hjt with rfl | hmem
      · rw [hit] at hja; exact absurd hja (by simp)
      · rw [processItems, processItem_nonasync attr strct it hit]
        exact ih ⟨jt, hmem, hja⟩

theorem processItems_noasync (attr strct : String) (items : List ImplItem)
    (h : ∀ it ∈ items, isAsyncItem it = false) :
    processItems attr strct items = .ok [] := by
  induction items with
  | nil => rfl
  | cons it rest ih =>
    rw [processItems,
        processItem_nonasync attr strct it (h it (List.mem_cons_self it rest))]
    exact ih fun jt hjt => h jt (List.mem_cons_of_mem it hjt)

theorem append_blocking_inj (a b : String) :
    a ++ "_blocking" = b ++ "_blocking" ↔ a = b := by
  constructor
  · intro h
    have hd := congrArg String.data h
    simp [String.data_append] at hd
    exact String.ext hd
  · intro h
    rw [h]

theorem asyncMethod?_eq_some {it : ImplItem} {m : Method} :
    asyncMethod? it = some m ↔ it = .method m ∧ m.sig.asyncness = true := by
  cases it with
  | other t => simp [asyncMethod?]
  | method m' =>
    constructor
    · intro h
      cases hb : m'.sig.asyncness with
      | false => simp [asyncMethod?, hb] at h
      | true =>
        simp [asyncMethod?, hb] at h
        exact ⟨by rw [h], h ▸ hb⟩
    · rintro ⟨heq, hb⟩
      cases heq
      simp [asyncMethod?, hb]

theorem countP_wrappers (attr strct n : String) (items : List ImplItem) :
    List.countP (isBlockingWrapperNamed n) (items.filterMap (wrapItem attr strct)) =
    List.countP (isAsyncNamed n) items := by
  induction items with
  | nil => rfl
  | cons it rest ih =>
    cases ha : asyncMethod? it with
    | none =>
      have hna : isAsyncNamed n it = false := by
        cases it with
        | other t => rfl
        | method m =>
          cases hb : m.sig.asyncness with
          | false => simp [isAsyncNamed, hb]
          | true => simp [asyncMethod?, hb] at ha
      simp [List.filterMap_cons, wrapItem, ha, List.countP_cons, hna, ih]
    | some m =>
      obtain ⟨heq, hb⟩ := asyncMethod?_eq_some.mp ha
      subst heq
      simp [List.filterMap_cons, wrapItem, ha, List.countP_cons, ih,
            isBlockingWrapperNamed, isAsyncNamed, wrapperM, hb,
            append_blocking_inj]

theorem length_wrappers (attr strct : String) (items : List ImplItem) :
    (items.filterMap (wrapItem attr strct)).length =
    List.countP isAsyncItem items := by
  induction items with
  | nil => rfl
  | cons it rest ih =>
    cases ha : asyncMethod? it with
    | none =>
      simp [List.filterMap_cons, wrapItem, ha, List.countP_cons, ih,
            isAsyncItem]
    | some m =>
      simp [List.filterMap_cons, wrapItem, ha, List.countP_cons, ih,
            isAsyncItem]

theorem callArgs_eq_filter_map (inputs : List FnArg) :
    callArgs inputs = (inputs.filter fun a => !isReceiver a).map argPat := by
  induction inputs with
  | nil => rfl
  | cons a rest ih =>
    cases a with
    | receiver tok => simpa [callArgs, isReceiver, List.filter_cons] using ih
    | typed pat ty => simpa [callArgs, isReceiver, List.filter_cons, argPat] using ih

/-- Claim C1: for every valid backend selector and every input impl block,
for every name `n`, the output contains exactly one additional non-async
method named `n ++ "_blocking"` per async method named `n` in the input,
and the output length exceeds the input length by exactly the number of
async methods — so no wrapper is generated for non-async methods or
non-method members. -/
theorem C1_one_wrapper_per_async (attr : String) (inp : ItemImpl)
    (hattr : attr = "tokio" ∨ attr = "async-std") :
    ∃ out, block_on attr inp = .ok out ∧
      (∀ n : String,
        List.countP (isBlockingWrapperNamed n) out.items =
          List.countP (isBlockingWrapperNamed n) inp.items +
          List.countP (isAsyncNamed n) inp.items) ∧
      out.items.length = inp.items.length + List.countP isAsyncItem inp.items := by
  refine ⟨_, block_on_valid attr inp hattr, ?_, ?_⟩
  · intro n
    simp [List.countP_append, countP_wrappers]
  · simp [List.length_append, length_wrappers]

/-- Witness for C1 at the `tokio` selector and the fixture impl block. -/
theorem C1_one_wrapper_per_async_witness :
    ∃ out, block_on "tokio" w1inp = .ok out ∧
      (∀ n : String,
        List.countP (isBlockingWrapperNamed n) out.items =
          List.countP (isBlockingWrapperNamed n) w1inp.items +
          List.countP (isAsyncNamed n) w1inp.items) ∧
      out.items.length = w1inp.items.length + List.countP isAsyncItem w1inp.items :=
  C1_one_wrapper_per_async "tokio" w1inp (Or.inl rfl)

/-- Claim C2 counterexample: the selector `"foo"` is neither `"tokio"` nor
`"async-std"`, yet on an impl block with no async method the transform
returns the input unchanged instead of aborting with a configuration
error — the selector is never examined. -/
theorem C2_counterexample :
    block_on "foo" noAsyncInp = .ok noAsyncInp := rfl

/-- Claim C2 (amended): for every selector other than `"tokio"` and
`"async-std"`, and every input impl block containing at least one async
method, the transform aborts with the configuration error message and
produces no output. -/
theorem C2_unsupported_backend_aborts (attr : String) (inp : ItemImpl)
    (h1 : attr ≠ "tokio") (h2 : attr ≠ "async-std")
    (hex : ∃ it ∈ inp.items, isAsyncItem it = true) :
    block_on attr inp = .error errMsg := by
  rw [block_on, processItems_invalid attr inp.selfTy h1 h2 inp.items hex]

/-- Witness for C2 (amended) at the selector `"foo"` and an impl block
holding one async method. -/
theorem C2_unsupported_backend_aborts_witness :
    block_on "foo" w1inp = .error errMsg :=
  C2_unsupported_backend_aborts "foo" w1inp (by decide) (by decide)
    ⟨.method asyncM, List.mem_cons_self _ _, rfl⟩

/-- Claim C3 counterexample: on the fixture impl block, whose async method
sits at index 0 followed by a non-method member, the member at index 1 of
the output is still the non-method member — not the wrapper, which was
appended at index 3.  The synthesized wrapper is therefore not positioned
immediately after its original async method. -/
theorem C3_counterexample :
    block_on "tokio" w1inp = .ok w1out ∧
    w1out.items[1]? = some otherItem ∧
    isBlockingWrapperNamed "test_async" otherItem = false ∧
    w1out.items[3]? = some (.method w1wrap) ∧
    isBlockingWrapperNamed "test_async" (.method w1wrap) = true :=
  ⟨rfl, rfl, rfl, rfl, by decide⟩

/-- Claim C3 (amended): for every valid selector, the wrappers are appended
after all original members, at the end of the output, in the same relative
order as their async counterparts (the order of `List.filterMap`). -/
theorem C3_wrappers_appended_in_order (attr : String) (inp : ItemImpl)
    (hattr : attr = "tokio" ∨ attr = "async-std") :
    block_on attr inp =
      .ok ⟨inp.selfTy,
           inp.items ++ inp.items.filterMap (wrapItem attr inp.selfTy)⟩ :=
  block_on_valid attr inp hattr

/-- Witness for C3 (amended) at the `tokio` selector and the fixture impl
block. -/
theorem C3_wrappers_appended_in_order_witness :
    block_on "tokio" w1inp =
      .ok ⟨w1inp.selfTy,
           w1inp.items ++ w1inp.items.filterMap (wrapItem "tokio" w1inp.selfTy)⟩ :=
  C3_wrappers_appended_in_order "tokio" w1inp (Or.inl rfl)

/-- Claim C4: for every valid selector, every member of the input that is
not an async method appears in the output structurally identical, at the
same position, and — provided it does not coincide with a synthesized
wrapper — exactly as often as in the input. -/
theorem C4_nonasync_passthrough (attr : String) (inp : ItemImpl) (i : Nat)
    (x : ImplItem)
    (hattr : attr = "tokio" ∨ attr = "async-std")
    (hx : inp.items[i]? = some x)
    (hna : isAsyncItem x = false)
    (hnw : ∀ m : Method, ImplItem.method (wrapperM attr inp.selfTy m) ≠ x) :
    ∃ out, block_on attr inp = .ok out ∧
      out.items[i]? = some x ∧
      List.countP (fun y => decide (y = x)) out.items =
        List.countP (fun y => decide (y = x)) inp.items := by
  have _hna := hna
  refine ⟨_, block_on_valid attr inp hattr, ?_, ?_⟩
  · have hi : i < inp.items.length := (List.getElem?_eq_some.mp hx).1
    show (inp.items ++ _)[i]? = some x
    rw [List.getElem?_append, if_pos hi]
    exact hx
  · show List.countP _ (inp.items ++ _) = _
    rw [List.countP_append]
    have hz : List.countP (fun y => decide (y = x))
        (inp.items.filterMap (wrapItem attr inp.selfTy)) = 0 := by
      rw [List.countP_eq_zero]
      intro a ha
      obtain ⟨b, _hb, hfb⟩ := List.mem_filterMap.mp ha
      simp only [wrapItem] at hfb
      obtain ⟨m, _hm, hma⟩ := Option.map_eq_some'.mp hfb
      simp only [decide_eq_true_eq]
      rw [← hma]
      exact hnw m
    rw [hz, Nat.add_zero]

/-- Witness for C4 at the `tokio` selector, the fixture impl block and its
non-method member at index 1. -/
theorem C4_nonasync_passthrough_witness :
    ∃ out, block_on "tokio" w1inp = .ok out ∧
      out.items[1]? = some otherItem ∧
      List.countP (fun y => decide (y = otherItem)) out.items =
        List.countP (fun y => decide (y = otherItem)) w1inp.items :=
  C4_nonasync_passthrough "tokio" w1inp 1 otherItem (Or.inl rfl) rfl rfl
    (fun _ h => ImplItem.noConfusion h)

/-- Claim C5: for every valid selector and every async method, the argument
list of the call expression in the synthesized wrapper's body is exactly
the original method's non-receiver parameter binding patterns, in the
original order. -/
theorem C5_argument_forwarding (attr strct : String) (m : Method)
    (hattr : attr = "tokio" ∨ attr = "async-std")
    (hasync : m.sig.asyncness = true) :
    ∃ w, processItem attr strct (.method m) = .ok (some w) ∧
      (blockCall w.block).map CallExpr.args =
        some ((m.sig.inputs.filter fun a => !isReceiver a).map argPat) := by
  rw [processItem_valid attr strct hattr]
  refine ⟨wrapperM attr strct m, by simp [asyncMethod?, hasync], ?_⟩
  rcases hattr with h | h <;> subst h <;>
    simp [wrapperM, blockCall, callArgs_eq_filter_map]

/-- Witness for C5 at the `tokio` selector and the fixture async method
with a receiver and one typed parameter. -/
theorem C5_argument_forwarding_witness :
    ∃ w, processItem "tokio" "T" (.method asyncM) = .ok (some w) ∧
      (blockCall w.block).map CallExpr.args =
        some ((asyncM.sig.inputs.filter fun a => !isReceiver a).map argPat) :=
  C5_argument_forwarding "tokio" "T" asyncM (Or.inl rfl) rfl

/-- Claim C6: for every valid selector and every async method whose
parameter list is well formed (a receiver marker appears at most at the
head, as the upstream parser guarantees), the receiver flag the transform
computes coincides with "the first entry is a receiver marker", and the
synthesized call expression is targeted at `self` exactly when that flag
holds, and at the owning type's name otherwise. -/
theorem C6_receiver_detection (attr strct : String) (m : Method)
    (hattr : attr = "tokio" ∨ attr = "async-std")
    (hasync : m.sig.asyncness = true)
    (hwf : ∀ a ∈ m.sig.inputs.tail, isReceiver a = false) :
    ∃ w c, processItem attr strct (.method m) = .ok (some w) ∧
      blockCall w.block = some c ∧
      m.sig.inputs.any isReceiver = firstIsReceiver m.sig.inputs ∧
      c.qualifier =
        (if firstIsReceiver m.sig.inputs then .selfQual else .typeQual strct) := by
  have hany : m.sig.inputs.any isReceiver = firstIsReceiver m.sig.inputs := by
    cases hl : m.sig.inputs with
    | nil => rfl
    | cons a rest =>
      have hr : rest.any isReceiver = false :=
        List.any_eq_false.mpr fun x hx => by
          simpa using hwf x (by rw [hl]; exact hx)
      simp [firstIsReceiver, List.any_cons, hr]
  rw [processItem_valid attr strct hattr]
  refine ⟨wrapperM attr strct m,
    ⟨if firstIsReceiver m.sig.inputs then .selfQual else .typeQual strct,
     m.sig.ident, callArgs m.sig.inputs⟩,
    by simp [asyncMethod?, hasync], ?_, hany, rfl⟩
  rcases hattr with h | h <;> subst h <;> simp [wrapperM, blockCall, hany]

/-- Witness for C6 at the `tokio` selector and the fixture async instance
method, whose receiver marker is its first parameter. -/
theorem C6_receiver_detection_witness :
    ∃ w c, processItem "tokio" "T" (.method asyncM) = .ok (some w) ∧
      blockCall w.block = some c ∧
      asyncM.sig.inputs.any isReceiver = firstIsReceiver asyncM.sig.inputs ∧
      c.qualifier =
        (if firstIsReceiver asyncM.sig.inputs then .selfQual else .typeQual "T") :=
  C6_receiver_detection "tokio" "T" asyncM (Or.inl rfl) rfl (by decide)

/-- Claim C7: for every valid selector and every async method, the `tokio`
selector synthesizes a body that constructs a fresh runtime and then
drives the call expression to completion on it, while the `async-std`
selector synthesizes a direct submission of the call expression to the
global blocking entry point, with no runtime-construction statement. -/
theorem C7_backend_body_shape (attr strct : String) (m : Method)
    (hattr : attr = "tokio" ∨ attr = "async-std")
    (hasync : m.sig.asyncness = true) :
    ∃ w c, processItem attr strct (.method m) = .ok (some w) ∧
      blockCall w.block = some c ∧
      (attr = "tokio" →
        w.block = [.useTokioRuntime, .letRuntimeNewUnwrap, .rtBlockOn c]) ∧
      (attr = "async-std" →
        w.block = [.useAsyncStdTask, .taskBlockOn c] ∧
        Stmt.letRuntimeNewUnwrap ∉ w.block ∧
        Stmt.useTokioRuntime ∉ w.block) := by
  rcases hattr with h | h <;> subst h
  · rw [processItem_valid "tokio" strct (Or.inl rfl)]
    refine ⟨wrapperM "tokio" strct m,
      ⟨if m.sig.inputs.any isReceiver then .selfQual else .typeQual strct,
       m.sig.ident, callArgs m.sig.inputs⟩,
      by simp [asyncMethod?, hasync], ?_, fun _ => ?_,
      fun hc => absurd hc (by decide)⟩
    · simp [wrapperM, blockCall]
    · simp [wrapperM]
  · rw [processItem_valid "async-std" strct (Or.inr rfl)]
    refine ⟨wrapperM "async-std" strct m,
      ⟨if m.sig.inputs.any isReceiver then .selfQual else .typeQual strct,
       m.sig.ident, callArgs m.sig.inputs⟩,
      by simp [asyncMethod?, hasync], ?_,
      fun hc => absurd hc (by decide), fun _ => ⟨?_, ?_, ?_⟩⟩
    · simp [wrapperM, blockCall]
    · simp [wrapperM]
    · simp [wrapperM]
    · simp [wrapperM]

/-- Witness for C7 at the `async-std` selector and the fixture async
method. -/
theorem C7_backend_body_shape_witness :
    ∃ w c, processItem "async-std" "T" (.method asyncM) = .ok (some w) ∧
      blockCall w.block = some c ∧
      ("async-std" = "tokio" →
        w.block = [.useTokioRuntime, .letRuntimeNewUnwrap, .rtBlockOn c]) ∧
      ("async-std" = "async-std" →
        w.block = [.useAsyncStdTask, .taskBlockOn c] ∧
        Stmt.letRuntimeNewUnwrap ∉ w.block ∧
        Stmt.useTokioRuntime ∉ w.block) :=
  C7_backend_body_shape "async-std" "T" asyncM (Or.inr rfl) rfl

/-- Claim C8: for every valid selector and every async method, the
synthesized wrapper keeps every component of the original method except
that the asyncness flag is cleared, the identifier carries the
`_blocking` suffix, and the block is replaced: attributes, visibility,
defaultness, parameter list (receiver included), return type and generics
are copied unchanged. -/
theorem C8_signature_mirrors_original (attr strct : String) (m : Method)
    (hattr : attr = "tokio" ∨ attr = "async-std")
    (hasync : m.sig.asyncness = true) :
    ∃ w, processItem attr strct (.method m) = .ok (some w) ∧
      w.attrs = m.attrs ∧ w.vis = m.vis ∧ w.defaultness = m.defaultness ∧
      w.sig.inputs = m.sig.inputs ∧ w.sig.output = m.sig.output ∧
      w.sig.generics = m.sig.generics ∧
      w.sig.asyncness = false ∧
      w.sig.ident = m.sig.ident ++ "_blocking" := by
  rw [processItem_valid attr strct hattr]
  exact ⟨wrapperM attr strct m, by simp [asyncMethod?, hasync],
    rfl, rfl, rfl, rfl, rfl, rfl, rfl, rfl⟩

/-- Witness for C8 at the `async-std` selector and the fixture async
associated function. -/
theorem C8_signature_mirrors_original_witness :
    ∃ w, processItem "async-std" "T" (.method asyncAssocM) = .ok (some w) ∧
      w.attrs = asyncAssocM.attrs ∧ w.vis = asyncAssocM.vis ∧
      w.defaultness = asyncAssocM.defaultness ∧
      w.sig.inputs = asyncAssocM.sig.inputs ∧
      w.sig.output = asyncAssocM.sig.output ∧
      w.sig.generics = asyncAssocM.sig.generics ∧
      w.sig.asyncness = false ∧
      w.sig.ident = asyncAssocM.sig.ident ++ "_blocking" :=
  C8_signature_mirrors_original "async-std" "T" asyncAssocM (Or.inr rfl) rfl

/-- Claim C9: for every valid selector, every async method of the input
appears in the output completely unchanged at its original position —
name, asyncness flag, signature and body untouched — and its synthesized
synchronous sibling is present among the appended members. -/
theorem C9_original_async_retained (attr : String) (inp : ItemImpl)
    (i : Nat) (m : Method)
    (hattr : attr = "tokio" ∨ attr = "async-std")
    (hi : inp.items[i]? = some (.method m))
    (hasync : m.sig.asyncness = true) :
    ∃ out, block_on attr inp = .ok out ∧
      out.items[i]? = some (.method m) ∧
      ImplItem.method (wrapperM attr inp.selfTy m) ∈
        out.items.drop inp.items.length := by
  refine ⟨_, block_on_valid attr inp hattr, ?_, ?_⟩
  · have hlen : i < inp.items.length := (List.getElem?_eq_some.mp hi).1
    show (inp.items ++ _)[i]? = some (.method m)
    rw [List.getElem?_append, if_pos hlen]
    exact hi
  · show ImplItem.method (wrapperM attr inp.selfTy m) ∈
      (inp.items ++ _).drop inp.items.length
    rw [List.drop_left]
    exact List.mem_filterMap.mpr
      ⟨.method m, List.getElem?_mem hi, by simp [wrapItem, asyncMethod?, hasync]⟩

/-- Witness for C9 at the `tokio` selector, the fixture impl block and its
async method at index 0. -/
theorem C9_original_async_retained_witness :
    ∃ out, block_on "tokio" w1inp = .ok out ∧
      out.items[0]? = some (.method asyncM) ∧
      ImplItem.method (wrapperM "tokio" w1inp.selfTy asyncM) ∈
        out.items.drop w1inp.items.length :=
  C9_original_async_retained "tokio" w1inp 0 asyncM (Or.inl rfl) rfl rfl

/-- Claim C10: for every input impl block containing no async method, the
transform succeeds for every selector string — the selector is never
examined — and returns the input unchanged, raising no configuration
error. -/
theorem C10_no_async_no_selector_check (attr : String) (inp : ItemImpl)
    (h : ∀ it ∈ inp.items, isAsyncItem it = false) :
    block_on attr inp = .ok inp := by
  rw [block_on, processItems_noasync attr inp.selfTy inp.items h]
  cases inp with
  | mk s items => simp

/-- Witness for C10 at the selector `"foo"` (outside the supported set) and
the fixture impl block without async methods. -/
theorem C10_no_async_no_selector_check_witness :
    block_on "foo" noAsyncInp = .ok noAsyncInp :=
  C10_no_async_no_selector_check "foo" noAsyncInp (by decide)

end BlockOn
